import Mathlib

/-!
Shallow embedding of the PSDI webhook-to-sync-queue service.

The embedding covers, faithfully to the Go source:
  * the JSON payload model (`internal/model`, `PaycorWebhookPayload` and its
    nested structs) together with the `encoding/json` marshal/unmarshal
    behaviour for exactly those struct shapes (field tags, `omitempty`,
    pointer fields, missing keys, type mismatches);
  * the event store (`internal/db/postgres.go`): `InsertEvent`,
    `GetPendingEvents`, `UpdateEventStatus`, `IncrementRetryCount`,
    `ProcessPendingEvents`;
  * the webhook handler (`internal/handlers.go`, `handlePaycorWebhook`).

Modelling conventions:
  * Go strings are modelled as Lean `String`s, `len`/slicing as length/take
    on the character list.
  * `time.Time` values that live inside the JSON payload are modelled by
    their RFC3339 wire representation (a `String`); database timestamps
    (`created_at` / `updated_at`, set from `time.Now()`) are modelled as
    abstract integer instants supplied by the caller.
  * `float64` payload fields are modelled as exact rationals: Go marshals a
    finite `float64` with the shortest decimal form that parses back to the
    same value, so marshalling is injective and parsing is its inverse on
    the representable values; `NaN`/`Inf` make `json.Marshal` error before
    anything is stored.
  * The database is external mutable state: every operation returns its
    result together with the resulting store, and a failed statement leaves
    the table unchanged.  Whether the n-th SQL statement of a run fails is
    decided by an oracle, modelling an unreachable or failing database.
-/

namespace PSDI

/-- JSON wire value, abstracting the documents read and written by
`encoding/json`. -/
inductive Json where
  | null : Json
  | bool (b : Bool) : Json
  | num (q : Rat) : Json
  | str (s : String) : Json
  | arr (elems : List Json) : Json
  | obj (fields : List (String × Json)) : Json

/-- `internal/model.Address`. -/
structure Address where
  Line1      : String
  Line2      : String
  City       : String
  State      : String
  PostalCode : String
  Country    : String
deriving DecidableEq

/-- `internal/model.ContactInfo`. -/
structure ContactInfo where
  Name         : String
  Relationship : String
  PhoneNumber  : String
  EmailAddress : String
  Address      : Option Address
deriving DecidableEq

/-- `internal/model.EmergencyContactData`. -/
structure EmergencyContactData where
  PrimaryContact   : Option ContactInfo
  SecondaryContact : Option ContactInfo
deriving DecidableEq

/-- `internal/model.CompensationData`. -/
structure CompensationData where
  Rate          : Rat
  RateUnit      : String
  EffectiveDate : String
  EndDate       : String
  AnnualAmount  : Rat
  Currency      : String
deriving DecidableEq

/-- `internal/model.StatusData`. -/
structure StatusData where
  Status              : String
  StatusEffectiveDate : String
  StatusReason        : String
deriving DecidableEq

/-- `internal/model.PositionData`. -/
structure PositionData where
  JobTitle      : String
  Manager       : String
  ManagerID     : String
  EmployeeType  : String
  EmployeeClass : String
  PayGroup      : String
  PayFrequency  : String
  FLSAStatus    : String
  StandardHours : Rat
deriving DecidableEq

/-- `internal/model.EmploymentDateData`. -/
structure EmploymentDateData where
  HireDate         : String
  AdjustedHireDate : String
  TerminationDate  : String
  RehireDate       : String
  LastDayWorked    : String
  RetirementDate   : String
deriving DecidableEq

/-- `internal/model.PaycorEmployee`. -/
structure PaycorEmployee where
  EmployeeID           : String
  FirstName            : String
  LastName             : String
  MiddleName           : String
  PreferredName        : String
  PersonalEmail        : String
  WorkEmail            : String
  Department           : String
  Location             : String
  EmploymentDateData   : Option EmploymentDateData
  PositionData         : Option PositionData
  StatusData           : Option StatusData
  CompensationData     : Option CompensationData
  EmergencyContactData : Option EmergencyContactData
deriving DecidableEq

/-- `internal/model.PaycorWebhookPayload`.  `EventTime` (a `time.Time` in
the source) is modelled by its RFC3339 wire string. -/
structure PaycorWebhookPayload where
  EventType   : String
  EventID     : String
  EventTime   : String
  APIClientID : String
  Body        : PaycorEmployee
deriving DecidableEq

/-! ### `encoding/json` marshalling for the payload structs

`json.Marshal` on a Go struct emits its fields in declaration order;
a field tagged `omitempty` is omitted when its value is the zero value
("" for strings, 0 for numbers, nil for pointers).  `json.Unmarshal`
ignores unknown keys, leaves the zero value for missing keys, errors on a
type mismatch, and sets a pointer field to nil on JSON `null`. -/

/-- One struct field without `omitempty`: always emitted. -/
def strField (k : String) (v : String) : List (String × Json) := [(k, .str v)]

/-- A string field tagged `omitempty`: omitted when the value is `""`. -/
def strOmit (k : String) (v : String) : List (String × Json) :=
  if v = "" then [] else [(k, .str v)]

/-- A `float64` field tagged `omitempty`: omitted when the value is `0`. -/
def numOmit (k : String) (q : Rat) : List (String × Json) :=
  if q = 0 then [] else [(k, .num q)]

/-- A pointer-to-struct field tagged `omitempty`: omitted when nil. -/
def optField {α : Type} (enc : α → Json) (k : String) : Option α → List (String × Json)
  | none => []
  | some a => [(k, enc a)]

/-- First binding of a key in a JSON object, as `encoding/json` reads it. -/
def lookupKv : List (String × Json) → String → Option Json
  | [], _ => none
  | (k, v) :: rest, key => if k = key then some v else lookupKv rest key

/-- Unmarshalling a JSON value into a Go struct requires a JSON object. -/
def asObj : Json → Option (List (String × Json))
  | .obj kvs => some kvs
  | _ => none

/-- Read a string field: missing key leaves the zero value `""`; a value of
another JSON type is an unmarshalling error. -/
def getStr (kvs : List (String × Json)) (k : String) : Option String :=
  match lookupKv kvs k with
  | none => some ""
  | some (.str s) => some s
  | some _ => none

/-- Read a `float64` field: missing key leaves the zero value `0`. -/
def getNum (kvs : List (String × Json)) (k : String) : Option Rat :=
  match lookupKv kvs k with
  | none => some 0
  | some (.num q) => some q
  | some _ => none

/-- Whether a JSON value is the literal `null`. -/
def Json.isNull : Json → Bool
  | .null => true
  | _ => false

/-- Read a pointer-to-struct field: missing key or JSON `null` leave the
pointer nil, anything else is decoded by `dec`. -/
def getOpt {α : Type} (dec : Json → Option α) (kvs : List (String × Json)) (k : String) :
    Option (Option α) :=
  match lookupKv kvs k with
  | none => some none
  | some j => if j.isNull then some none else (dec j).map some

/-- Marshal `Address` (all fields `omitempty`). -/
def encodeAddress (a : Address) : Json :=
  .obj (strOmit "line1" a.Line1 ++ strOmit "line2" a.Line2 ++ strOmit "city" a.City ++
    strOmit "state" a.State ++ strOmit "postalCode" a.PostalCode ++
    strOmit "country" a.Country)

/-- Unmarshal `Address`. -/
def decodeAddress (j : Json) : Option Address := do
  let kvs ← asObj j
  let line1 ← getStr kvs "line1"
  let line2 ← getStr kvs "line2"
  let city ← getStr kvs "city"
  let state ← getStr kvs "state"
  let postalCode ← getStr kvs "postalCode"
  let country ← getStr kvs "country"
  pure ⟨line1, line2, city, state, postalCode, country⟩

/-- Marshal `ContactInfo`. -/
def encodeContactInfo (c : ContactInfo) : Json :=
  .obj (strOmit "name" c.Name ++ strOmit "relationship" c.Relationship ++
    strOmit "phoneNumber" c.PhoneNumber ++ strOmit "emailAddress" c.EmailAddress ++
    optField encodeAddress "address" c.Address)

/-- Unmarshal `ContactInfo`. -/
def decodeContactInfo (j : Json) : Option ContactInfo := do
  let kvs ← asObj j
  let name ← getStr kvs "name"
  let relationship ← getStr kvs "relationship"
  let phoneNumber ← getStr kvs "phoneNumber"
  let emailAddress ← getStr kvs "emailAddress"
  let address ← getOpt decodeAddress kvs "address"
  pure ⟨name, relationship, phoneNumber, emailAddress, address⟩

/-- Marshal `EmergencyContactData`. -/
def encodeEmergencyContactData (e : EmergencyContactData) : Json :=
  .obj (optField encodeContactInfo "primaryContact" e.PrimaryContact ++
    optField encodeContactInfo "secondaryContact" e.SecondaryContact)

/-- Unmarshal `EmergencyContactData`. -/
def decodeEmergencyContactData (j : Json) : Option EmergencyContactData := do
  let kvs ← asObj j
  let primaryContact ← getOpt decodeContactInfo kvs "primaryContact"
  let secondaryContact ← getOpt decodeContactInfo kvs "secondaryContact"
  pure ⟨primaryContact, secondaryContact⟩

/-- Marshal `CompensationData`. -/
def encodeCompensationData (c : CompensationData) : Json :=
  .obj (numOmit "rate" c.Rate ++ strOmit "rateUnit" c.RateUnit ++
    strOmit "effectiveDate" c.EffectiveDate ++ strOmit "endDate" c.EndDate ++
    numOmit "annualAmount" c.AnnualAmount ++ strOmit "currency" c.Currency)

/-- Unmarshal `CompensationData`. -/
def decodeCompensationData (j : Json) : Option CompensationData := do
  let kvs ← asObj j
  let rate ← getNum kvs "rate"
  let rateUnit ← getStr kvs "rateUnit"
  let effectiveDate ← getStr kvs "effectiveDate"
  let endDate ← getStr kvs "endDate"
  let annualAmount ← getNum kvs "annualAmount"
  let currency ← getStr kvs "currency"
  pure ⟨rate, rateUnit, effectiveDate, endDate, annualAmount, currency⟩

/-- Marshal `StatusData`. -/
def encodeStatusData (s : StatusData) : Json :=
  .obj (strOmit "status" s.Status ++ strOmit "statusEffectiveDate" s.StatusEffectiveDate ++
    strOmit "statusReason" s.StatusReason)

/-- Unmarshal `StatusData`. -/
def decodeStatusData (j : Json) : Option StatusData := do
  let kvs ← asObj j
  let status ← getStr kvs "status"
  let statusEffectiveDate ← getStr kvs "statusEffectiveDate"
  let statusReason ← getStr kvs "statusReason"
  pure ⟨status, statusEffectiveDate, statusReason⟩

/-- Marshal `PositionData`. -/
def encodePositionData (p : PositionData) : Json :=
  .obj (strOmit "jobTitle" p.JobTitle ++ strOmit "manager" p.Manager ++
    strOmit "managerId" p.ManagerID ++ strOmit "employeeType" p.EmployeeType ++
    strOmit "employeeClass" p.EmployeeClass ++ strOmit "payGroup" p.PayGroup ++
    strOmit "payFrequency" p.PayFrequency ++ strOmit "flsaStatus" p.FLSAStatus ++
    numOmit "standardHours" p.StandardHours)

/-- Unmarshal `PositionData`. -/
def decodePositionData (j : Json) : Option PositionData := do
  let kvs ← asObj j
  let jobTitle ← getStr kvs "jobTitle"
  let manager ← getStr kvs "manager"
  let managerId ← getStr kvs "managerId"
  let employeeType ← getStr kvs "employeeType"
  let employeeClass ← getStr kvs "employeeClass"
  let payGroup ← getStr kvs "payGroup"
  let payFrequency ← getStr kvs "payFrequency"
  let flsaStatus ← getStr kvs "flsaStatus"
  let standardHours ← getNum kvs "standardHours"
  pure ⟨jobTitle, manager, managerId, employeeType, employeeClass, payGroup,
    payFrequency, flsaStatus, standardHours⟩

/-- Marshal `EmploymentDateData`. -/
def encodeEmploymentDateData (e : EmploymentDateData) : Json :=
  .obj (strOmit "hireDate" e.HireDate ++ strOmit "adjustedHireDate" e.AdjustedHireDate ++
    strOmit "terminationDate" e.TerminationDate ++ strOmit "rehireDate" e.RehireDate ++
    strOmit "lastDayWorked" e.LastDayWorked ++ strOmit "retirementDate" e.RetirementDate)

/-- Unmarshal `EmploymentDateData`. -/
def decodeEmploymentDateData (j : Json) : Option EmploymentDateData := do
  let kvs ← asObj j
  let hireDate ← getStr kvs "hireDate"
  let adjustedHireDate ← getStr kvs "adjustedHireDate"
  let terminationDate ← getStr kvs "terminationDate"
  let rehireDate ← getStr kvs "rehireDate"
  let lastDayWorked ← getStr kvs "lastDayWorked"
  let retirementDate ← getStr kvs "retirementDate"
  pure ⟨hireDate, adjustedHireDate, terminationDate, rehireDate, lastDayWorked,
    retirementDate⟩

/-- The field list `json.Marshal` emits for a `PaycorEmployee`
(`employeeId`, `firstName`, `lastName` are not tagged `omitempty`; the
rest are).  Split out of `encodePaycorEmployee` to structure the
round-trip proof. -/
def paycorEmployeeFields (e : PaycorEmployee) : List (String × Json) :=
  strField "employeeId" e.EmployeeID ++ strField "firstName" e.FirstName ++
    strField "lastName" e.LastName ++ strOmit "middleName" e.MiddleName ++
    strOmit "preferredName" e.PreferredName ++ strOmit "personalEmail" e.PersonalEmail ++
    strOmit "workEmail" e.WorkEmail ++ strOmit "department" e.Department ++
    strOmit "location" e.Location ++
    optField encodeEmploymentDateData "employmentDateData" e.EmploymentDateData ++
    optField encodePositionData "positionData" e.PositionData ++
    optField encodeStatusData "statusData" e.StatusData ++
    optField encodeCompensationData "compensationData" e.CompensationData ++
    optField encodeEmergencyContactData "emergencyContactData" e.EmergencyContactData

/-- Marshal `PaycorEmployee`. -/
def encodePaycorEmployee (e : PaycorEmployee) : Json :=
  .obj (paycorEmployeeFields e)

/-- Unmarshal `PaycorEmployee`: every field read must succeed. -/
def decodePaycorEmployee (j : Json) : Option PaycorEmployee :=
  match asObj j with
  | none => none
  | some kvs =>
    match getStr kvs "employeeId", getStr kvs "firstName", getStr kvs "lastName",
      getStr kvs "middleName", getStr kvs "preferredName", getStr kvs "personalEmail",
      getStr kvs "workEmail", getStr kvs "department", getStr kvs "location",
      getOpt decodeEmploymentDateData kvs "employmentDateData",
      getOpt decodePositionData kvs "positionData",
      getOpt decodeStatusData kvs "statusData",
      getOpt decodeCompensationData kvs "compensationData",
      getOpt decodeEmergencyContactData kvs "emergencyContactData" with
    | some employeeId, some firstName, some lastName, some middleName, some preferredName,
      some personalEmail, some workEmail, some department, some location,
      some employmentDateData, some positionData, some statusData, some compensationData,
      some emergencyContactData =>
      some ⟨employeeId, firstName, lastName, middleName, preferredName, personalEmail,
        workEmail, department, location, employmentDateData, positionData, statusData,
        compensationData, emergencyContactData⟩
    | _, _, _, _, _, _, _, _, _, _, _, _, _, _ => none

/-- Marshal `PaycorWebhookPayload` (no field is tagged `omitempty`;
`eventTime` is a `time.Time` and marshals as its RFC3339 string). -/
def encodePaycorWebhookPayload (p : PaycorWebhookPayload) : Json :=
  .obj (strField "eventType" p.EventType ++ strField "eventId" p.EventID ++
    strField "eventTime" p.EventTime ++ strField "apiClientId" p.APIClientID ++
    [("body", encodePaycorEmployee p.Body)])

/-- Unmarshal `PaycorWebhookPayload`.  A missing `body` key leaves the zero
`PaycorEmployee`; a `body` of a non-object type is an error. -/
def decodePaycorWebhookPayload (j : Json) : Option PaycorWebhookPayload := do
  let kvs ← asObj j
  let eventType ← getStr kvs "eventType"
  let eventId ← getStr kvs "eventId"
  let eventTime ← getStr kvs "eventTime"
  let apiClientId ← getStr kvs "apiClientId"
  let body ← match lookupKv kvs "body" with
    | none => some (⟨"", "", "", "", "", "", "", "", "", none, none, none, none, none⟩ : PaycorEmployee)
    | some bj => decodePaycorEmployee bj
  pure ⟨eventType, eventId, eventTime, apiClientId, body⟩

/-! ### The event store (`internal/db/postgres.go`)

The database is external state; a SQL statement either takes effect or
fails leaving the table unchanged.  Which statement of a run fails is
chosen by a `DbOracle` indexed by the number of statements issued so far,
so one embedding covers both the all-successful executions and the
executions in which the store fails partway. -/

/-- `db.SyncEvent` (postgres.go lines 14-24): the in-memory event record. -/
structure SyncEvent where
  ID           : Int
  EventType    : String
  Payload      : PaycorWebhookPayload
  Status       : String
  CreatedAt    : Int
  UpdatedAt    : Int
  RetryCount   : Int
  ErrorDetail  : String
  JiraObjectID : String
deriving DecidableEq

/-- One row of the `sync_queue` table.  The payload column holds the
serialized JSON that `InsertEvent` wrote (postgres.go line 69).
`InsertEvent` does not set the `jira_object_id` column (lines 74-80), so a
fresh row carries the schema default `""` (the row scan in
`GetPendingEvents`, line 132, reads the column into a non-nullable Go
string, which requires it to be non-NULL). -/
structure Row where
  id             : Int
  event_type     : String
  payload        : Json
  status         : String
  created_at     : Int
  updated_at     : Int
  retry_count    : Int
  error_detail   : String
  jira_object_id : String

/-- Decides whether the n-th SQL statement of a run fails. -/
structure DbOracle where
  fails : Nat → Bool

/-- The oracle of a run in which the store never fails. -/
def allOk : DbOracle := ⟨fun _ => false⟩

/-- The database state plus the id sequence and the statement counter. -/
structure Store where
  table  : List Row
  nextId : Int
  calls  : Nat

/-- Count one issued SQL statement. -/
def bump (s : Store) : Store := { s with calls := s.calls + 1 }

/-- The error classes the store operations produce. -/
inductive DbError where
  | queryFailed : DbError
  | unmarshalFailed : DbError
  | execFailed : DbError
deriving DecidableEq

/-- The row `InsertEvent` writes (postgres.go lines 74-91): the payload is
marshalled; `jira_object_id` is not in the column list and gets the
schema default. -/
def mkRow (id : Int) (e : SyncEvent) : Row :=
  ⟨id, e.EventType, encodePaycorWebhookPayload e.Payload, e.Status,
    e.CreatedAt, e.UpdatedAt, e.RetryCount, e.ErrorDetail, ""⟩

/-- `InsertEvent` (postgres.go lines 67-98): marshal the payload, insert a
row, return the sequence-assigned id. -/
def InsertEvent (o : DbOracle) (s : Store) (e : SyncEvent) : Except DbError Int × Store :=
  if o.fails s.calls then (.error .queryFailed, bump s)
  else (.ok s.nextId, ⟨s.table ++ [mkRow s.nextId e], s.nextId + 1, s.calls + 1⟩)

/-- The rows the `GetPendingEvents` query ranges over:
`WHERE status = 'Pending'` (postgres.go line 107). -/
def pendingRows (table : List Row) : List Row :=
  table.filter fun r => r.status = "Pending"

/-- The comparison of the query's `ORDER BY created_at ASC` (line 108). -/
def createdAtLE (a b : Row) : Prop := a.created_at ≤ b.created_at

instance : DecidableRel createdAtLE := fun a b => Int.decLe a.created_at b.created_at

instance : IsTotal Row createdAtLE := ⟨fun a b => Int.le_total a.created_at b.created_at⟩

instance : IsTrans Row createdAtLE :=
  ⟨fun _ _ _ hab hbc => Int.le_trans hab hbc⟩

/-- A stable sort by `created_at`, one deterministic refinement of the
query's `ORDER BY created_at ASC`, which fixes no order among rows with
equal `created_at`. -/
def sortByCreatedAt (l : List Row) : List Row := List.insertionSort createdAtLE l

/-- Rehydrate one scanned row (postgres.go lines 119-143): unmarshal the
payload column back into the struct. -/
def rowToSyncEvent (r : Row) : Option SyncEvent :=
  match decodePaycorWebhookPayload r.payload with
  | none => none
  | some p =>
    some ⟨r.id, r.event_type, p, r.status, r.created_at, r.updated_at, r.retry_count,
      r.error_detail, r.jira_object_id⟩

/-- Rehydrate the scanned rows in order; the first failing unmarshal aborts
the whole call (line 140). -/
def decodeRows : List Row → Option (List SyncEvent)
  | [] => some []
  | r :: rs =>
    match rowToSyncEvent r, decodeRows rs with
    | some e, some es => some (e :: es)
    | _, _ => none

/-- `GetPendingEvents` (postgres.go lines 101-151):
`SELECT ... WHERE status = 'Pending' ORDER BY created_at ASC LIMIT $1`,
then scan and unmarshal each row.  An empty result is not an error. -/
def GetPendingEvents (o : DbOracle) (s : Store) (limit : Nat) :
    Except DbError (List SyncEvent) × Store :=
  if o.fails s.calls then (.error .queryFailed, bump s)
  else
    match decodeRows ((sortByCreatedAt (pendingRows s.table)).take limit) with
    | none => (.error .unmarshalFailed, bump s)
    | some events => (.ok events, bump s)

/-- The semantics of the `GetPendingEvents` SQL query itself: the result is
the first `limit` rows of SOME `created_at`-ascending arrangement of the
pending rows.  `ORDER BY created_at ASC` fixes nothing further, so any
such arrangement is an admissible query answer. -/
def IsPendingBatchResult (table : List Row) (limit : Nat) (res : List Row) : Prop :=
  ∃ sorted : List Row, sorted.Perm (pendingRows table) ∧
    List.Sorted createdAtLE sorted ∧
    res = sorted.take limit

/-- Sorted by `created_at` ascending with ties broken by `id`, as the spec
words the ordering guarantee. -/
def SortedByCreatedAtThenId (res : List Row) : Prop :=
  List.Sorted (fun a b =>
    a.created_at < b.created_at ∨ (a.created_at = b.created_at ∧ a.id ≤ b.id)) res

/-- The effect of the `UpdateEventStatus` UPDATE (postgres.go lines
155-163) on the table: every row matching the id gets the new status,
timestamp, error detail and jira object id. -/
def applyUpdateStatus (id : Int) (status errorDetail jiraObjectID : String) (now : Int)
    (table : List Row) : List Row :=
  table.map fun r =>
    if r.id = id then
      { r with
          status := status
          updated_at := now
          error_detail := errorDetail
          jira_object_id := jiraObjectID }
    else r

/-- `UpdateEventStatus` (postgres.go lines 154-179).  The call runs
`db.Exec` and never inspects the affected-row count, so it succeeds even
when no row matches. -/
def UpdateEventStatus (o : DbOracle) (s : Store) (id : Int)
    (status errorDetail jiraObjectID : String) (now : Int) : Except DbError Unit × Store :=
  if o.fails s.calls then (.error .execFailed, bump s)
  else
    (.ok (), ⟨applyUpdateStatus id status errorDetail jiraObjectID now s.table,
      s.nextId, s.calls + 1⟩)

/-- The effect of the `IncrementRetryCount` UPDATE (postgres.go lines
183-189) on the table. -/
def applyIncrementRetry (id : Int) (now : Int) (table : List Row) : List Row :=
  table.map fun r =>
    if r.id = id then { r with retry_count := r.retry_count + 1, updated_at := now }
    else r

/-- `IncrementRetryCount` (postgres.go lines 182-197); like
`UpdateEventStatus` it never inspects the affected-row count. -/
def IncrementRetryCount (o : DbOracle) (s : Store) (id : Int) (now : Int) :
    Except DbError Unit × Store :=
  if o.fails s.calls then (.error .execFailed, bump s)
  else (.ok (), ⟨applyIncrementRetry id now s.table, s.nextId, s.calls + 1⟩)

/-- The spec's `MarkProcessing(id)` is the call
`UpdateEventStatus(event.ID, "Processing", "", "")` at postgres.go
line 209. -/
def MarkProcessing (o : DbOracle) (s : Store) (id : Int) (now : Int) :
    Except DbError Unit × Store :=
  UpdateEventStatus o s id "Processing" "" "" now

/-- The truncation of postgres.go lines 218-222: error messages longer
than 500 are cut to the first 500. -/
def truncateErrorDetail (msg : String) : String :=
  if 500 < msg.length then String.mk (msg.data.take 500) else msg

/-- The body of the `ProcessPendingEvents` loop for one event
(postgres.go lines 207-238).  The handler has the Go type
`func(SyncEvent) error`: `none` is a nil error, `some msg` an error whose
message is `msg`. -/
def processOne (o : DbOracle) (handler : SyncEvent → Option String) (now : Int)
    (s : Store) (event : SyncEvent) : Except DbError Unit × Store :=
  match MarkProcessing o s event.ID now with
  | (.error e, s1) => (.error e, s1)
  | (.ok _, s1) =>
    match handler event with
    | some msg =>
      match UpdateEventStatus o s1 event.ID "Failed" (truncateErrorDetail msg) "" now with
      | (.error e, s2) => (.error e, s2)
      | (.ok _, s2) => IncrementRetryCount o s2 event.ID now
    | none => UpdateEventStatus o s1 event.ID "Success" "" event.JiraObjectID now

/-- The `for _, event := range events` loop of `ProcessPendingEvents`:
a store failure returns immediately, otherwise the next event is
processed. -/
def processList (o : DbOracle) (handler : SyncEvent → Option String) (now : Int) :
    List SyncEvent → Store → Except DbError Unit × Store
  | [], s => (.ok (), s)
  | e :: es, s =>
    match processOne o handler now s e with
    | (.error err, s1) => (.error err, s1)
    | (.ok _, s1) => processList o handler now es s1

/-- `ProcessPendingEvents` (postgres.go lines 200-241): fetch a batch of
10 pending events, then run the loop. -/
def ProcessPendingEvents (o : DbOracle) (handler : SyncEvent → Option String) (now : Int)
    (s : Store) : Except DbError Unit × Store :=
  match GetPendingEvents o s 10 with
  | (.error e, s1) => (.error e, s1)
  | (.ok events, s1) => processList o handler now events s1

/-- The Synchronization Handler contract as the spec states it: success
carries a downstream identifier, failure a message. -/
def SpecHandler : Type := SyncEvent → Except String String

/-- The only way `ProcessPendingEvents` can invoke such a handler: its
parameter has type `func(SyncEvent) error`, which discards any success
identifier. -/
def adaptHandler (h : SpecHandler) : SyncEvent → Option String := fun e =>
  match h e with
  | .ok _ => none
  | .error msg => some msg

/-! ### The webhook handler (`internal/handlers.go`) -/

/-- `handlePaycorWebhook` (handlers.go lines 72-113).  The request body is
given as the result of reading it as JSON: `none` when the bytes are not
well-formed JSON.  Returns the HTTP status code, the response body, and
the resulting store. -/
def handlePaycorWebhook (o : DbOracle) (s : Store) (now : Int) (body : Option Json) :
    Nat × Json × Store :=
  match body with
  | none => (400, .str "Invalid request payload", s)
  | some doc =>
    match decodePaycorWebhookPayload doc with
    | none => (400, .str "Invalid request payload", s)
    | some payload =>
      if payload.EventType = "" then (400, .str "Missing event type", s)
      else
        let event : SyncEvent :=
          ⟨0, payload.EventType, payload, "Pending", now, now, 0, "", ""⟩
        match InsertEvent o s event with
        | (.error _, s1) => (500, .str "Failed to process event", s1)
        | (.ok _, s1) =>
          (202, .obj [("message", .str "Event queued for processing"),
            ("status", .str "accepted")], s1)

/-! ### Concrete sample data used by witnesses and counterexamples -/

/-- A small employee record. -/
def sampleEmployee : PaycorEmployee :=
  ⟨"E1", "Ada", "Lovelace", "", "", "", "", "", "", none, none, none, none, none⟩

/-- A small webhook payload with a non-empty event type. -/
def samplePayload : PaycorWebhookPayload :=
  ⟨"employee.updated", "evt-1", "2024-01-15T18:09:07Z", "client-1", sampleEmployee⟩

/-- A freshly inserted pending event. -/
def sampleEvent : SyncEvent :=
  ⟨1, "employee.updated", samplePayload, "Pending", 0, 0, 0, "", ""⟩

/-- A store holding the one pending event, id sequence at 2. -/
def sampleStore : Store := ⟨[mkRow 1 sampleEvent], 2, 0⟩

/-- The event as `GetPendingEvents` rehydrates it from `sampleStore`. -/
def sampleFetched : SyncEvent :=
  ⟨1, "employee.updated", samplePayload, "Pending", 0, 0, 0, "", ""⟩

/-- A row carrying a recorded failure and a downstream object id. -/
def failedRow : Row :=
  { mkRow 1 sampleEvent with
      status := "Failed"
      error_detail := "boom"
      jira_object_id := "J-1" }

/-- A store holding `failedRow`. -/
def failedStore : Store := ⟨[failedRow], 2, 0⟩

/-- Two pending rows with the same `created_at` and ids 1 and 2. -/
def rowA : Row := ⟨1, "t", Json.null, "Pending", 5, 0, 0, "", ""⟩

/-- See `rowA`. -/
def rowB : Row := ⟨2, "t", Json.null, "Pending", 5, 0, 0, "", ""⟩

/-- A table whose two pending rows tie on `created_at`. -/
def tieTable : List Row := [rowA, rowB]

/-- An oracle failing exactly the fourth SQL statement of a run: for a
one-event batch with a failing handler these are the batch query, the
`Processing` update, the `Failed` update, and then the retry-count
update. -/
def failOnFourth : DbOracle := ⟨fun n => n == 3⟩

/-- A spec-contract handler that succeeds and supplies the downstream
identifier `"JIRA-123"`. -/
def specSuccessHandler : SpecHandler := fun _ => .ok "JIRA-123"

/-! ### Round-trip of the payload through marshal/unmarshal -/

theorem lookupKv_nil (k : String) : lookupKv [] k = none := rfl

theorem lookupKv_strField_skip (k k' v : String) (rest : List (String × Json)) (h : ¬ k' = k) :
    lookupKv (strField k' v ++ rest) k = lookupKv rest k := by
  simp [strField, lookupKv, h]

theorem lookupKv_strOmit_skip (k k' v : String) (rest : List (String × Json)) (h : ¬ k' = k) :
    lookupKv (strOmit k' v ++ rest) k = lookupKv rest k := by
  unfold strOmit; split <;> simp [lookupKv, h]

theorem lookupKv_numOmit_skip (k k' : String) (q : Rat) (rest : List (String × Json))
    (h : ¬ k' = k) : lookupKv (numOmit k' q ++ rest) k = lookupKv rest k := by
  unfold numOmit; split <;> simp [lookupKv, h]

theorem lookupKv_optField_skip {α : Type} (enc : α → Json) (k k' : String) (x : Option α)
    (rest : List (String × Json)) (h : ¬ k' = k) :
    lookupKv (optField enc k' x ++ rest) k = lookupKv rest k := by
  cases x <;> simp [optField, lookupKv, h]

theorem lookupKv_strField_none (k k' v : String) (h : ¬ k' = k) :
    lookupKv (strField k' v) k = none := by
  simp [strField, lookupKv, h]

theorem lookupKv_strOmit_none (k k' v : String) (h : ¬ k' = k) :
    lookupKv (strOmit k' v) k = none := by
  unfold strOmit; split <;> simp [lookupKv, h]

theorem lookupKv_numOmit_none (k k' : String) (q : Rat) (h : ¬ k' = k) :
    lookupKv (numOmit k' q) k = none := by
  unfold numOmit; split <;> simp [lookupKv, h]

theorem lookupKv_optField_none {α : Type} (enc : α → Json) (k k' : String) (x : Option α)
    (h : ¬ k' = k) : lookupKv (optField enc k' x) k = none := by
  cases x <;> simp [optField, lookupKv, h]

theorem getStr_strField_skip (k k' v : String) (rest : List (String × Json)) (h : ¬ k' = k) :
    getStr (strField k' v ++ rest) k = getStr rest k := by
  unfold getStr; rw [lookupKv_strField_skip k k' v rest h]

theorem getStr_strOmit_skip (k k' v : String) (rest : List (String × Json)) (h : ¬ k' = k) :
    getStr (strOmit k' v ++ rest) k = getStr rest k := by
  unfold getStr; rw [lookupKv_strOmit_skip k k' v rest h]

theorem getStr_numOmit_skip (k k' : String) (q : Rat) (rest : List (String × Json))
    (h : ¬ k' = k) : getStr (numOmit k' q ++ rest) k = getStr rest k := by
  unfold getStr; rw [lookupKv_numOmit_skip k k' q rest h]

theorem getNum_strField_skip (k k' v : String) (rest : List (String × Json)) (h : ¬ k' = k) :
    getNum (strField k' v ++ rest) k = getNum rest k := by
  unfold getNum; rw [lookupKv_strField_skip k k' v rest h]

theorem getNum_strOmit_skip (k k' v : String) (rest : List (String × Json)) (h : ¬ k' = k) :
    getNum (strOmit k' v ++ rest) k = getNum rest k := by
  unfold getNum; rw [lookupKv_strOmit_skip k k' v rest h]

theorem getNum_numOmit_skip (k k' : String) (q : Rat) (rest : List (String × Json))
    (h : ¬ k' = k) : getNum (numOmit k' q ++ rest) k = getNum rest k := by
  unfold getNum; rw [lookupKv_numOmit_skip k k' q rest h]

theorem getOpt_strField_skip {α : Type} (dec : Json → Option α) (k k' v : String)
    (rest : List (String × Json)) (h : ¬ k' = k) :
    getOpt dec (strField k' v ++ rest) k = getOpt dec rest k := by
  unfold getOpt; rw [lookupKv_strField_skip k k' v rest h]

theorem getOpt_strOmit_skip {α : Type} (dec : Json → Option α) (k k' v : String)
    (rest : List (String × Json)) (h : ¬ k' = k) :
    getOpt dec (strOmit k' v ++ rest) k = getOpt dec rest k := by
  unfold getOpt; rw [lookupKv_strOmit_skip k k' v rest h]

theorem getOpt_numOmit_skip {α : Type} (dec : Json → Option α) (k k' : String) (q : Rat)
    (rest : List (String × Json)) (h : ¬ k' = k) :
    getOpt dec (numOmit k' q ++ rest) k = getOpt dec rest k := by
  unfold getOpt; rw [lookupKv_numOmit_skip k k' q rest h]

theorem getOpt_optField_skip {α β : Type} (dec : Json → Option α) (enc : β → Json)
    (k k' : String) (x : Option β) (rest : List (String × Json)) (h : ¬ k' = k) :
    getOpt dec (optField enc k' x ++ rest) k = getOpt dec rest k := by
  unfold getOpt; rw [lookupKv_optField_skip enc k k' x rest h]

theorem getStr_strField_hit (k v : String) (rest : List (String × Json)) :
    getStr (strField k v ++ rest) k = some v := by
  simp [getStr, strField, lookupKv]

theorem getStr_strOmit_hit (k v : String) (rest : List (String × Json))
    (h : lookupKv rest k = none) : getStr (strOmit k v ++ rest) k = some v := by
  by_cases hv : v = ""
  · simp [getStr, strOmit, hv, h]
  · simp [getStr, strOmit, hv, lookupKv]

theorem getStr_strOmit_hitLast (k v : String) : getStr (strOmit k v) k = some v := by
  by_cases hv : v = ""
  · simp [getStr, strOmit, hv, lookupKv_nil]
  · simp [getStr, strOmit, hv, lookupKv]

theorem getNum_numOmit_hit (k : String) (q : Rat) (rest : List (String × Json))
    (h : lookupKv rest k = none) : getNum (numOmit k q ++ rest) k = some q := by
  by_cases hq : q = 0
  · simp [getNum, numOmit, hq, h]
  · simp [getNum, numOmit, hq, lookupKv]

theorem getNum_numOmit_hitLast (k : String) (q : Rat) : getNum (numOmit k q) k = some q := by
  by_cases hq : q = 0
  · simp [getNum, numOmit, hq, lookupKv_nil]
  · simp [getNum, numOmit, hq, lookupKv]

theorem getOpt_optField_hit {α : Type} (dec : Json → Option α) (enc : α → Json) (k : String)
    (x : Option α) (rest : List (String × Json)) (h : lookupKv rest k = none)
    (hnull : ∀ a, (enc a).isNull = false) (hrt : ∀ a, dec (enc a) = some a) :
    getOpt dec (optField enc k x ++ rest) k = some x := by
  cases x with
  | none => simp [optField, getOpt, h]
  | some a => simp [optField, getOpt, lookupKv, hnull a, hrt a]

theorem getOpt_optField_hitLast {α : Type} (dec : Json → Option α) (enc : α → Json)
    (k : String) (x : Option α) (hnull : ∀ a, (enc a).isNull = false)
    (hrt : ∀ a, dec (enc a) = some a) : getOpt dec (optField enc k x) k = some x := by
  cases x with
  | none => simp [optField, getOpt, lookupKv_nil]
  | some a => simp [optField, getOpt, lookupKv, hnull a, hrt a]

theorem isNull_encodeAddress (a : Address) : (encodeAddress a).isNull = false := rfl

theorem decodeAddress_encodeAddress (a : Address) :
    decodeAddress (encodeAddress a) = some a := by
  simp [decodeAddress, encodeAddress, asObj, List.append_assoc,
    getStr_strOmit_hit, getStr_strOmit_hitLast, getStr_strOmit_skip,
    lookupKv_strOmit_skip, lookupKv_strOmit_none]

theorem isNull_encodeContactInfo (c : ContactInfo) : (encodeContactInfo c).isNull = false := rfl

theorem decodeContactInfo_encodeContactInfo (c : ContactInfo) :
    decodeContactInfo (encodeContactInfo c) = some c := by
  simp [decodeContactInfo, encodeContactInfo, asObj, List.append_assoc,
    getStr_strOmit_hit, getStr_strOmit_skip, getOpt_strOmit_skip,
    getOpt_optField_hitLast, isNull_encodeAddress, decodeAddress_encodeAddress,
    lookupKv_strOmit_skip, lookupKv_optField_none, lookupKv_optField_skip]

theorem isNull_encodeEmergencyContactData (e : EmergencyContactData) :
    (encodeEmergencyContactData e).isNull = false := rfl

theorem decodeEmergencyContactData_encodeEmergencyContactData (e : EmergencyContactData) :
    decodeEmergencyContactData (encodeEmergencyContactData e) = some e := by
  simp [decodeEmergencyContactData, encodeEmergencyContactData, asObj, List.append_assoc,
    getOpt_optField_hit, getOpt_optField_hitLast, getOpt_optField_skip,
    isNull_encodeContactInfo, decodeContactInfo_encodeContactInfo,
    lookupKv_optField_skip, lookupKv_optField_none]

theorem isNull_encodeCompensationData (c : CompensationData) :
    (encodeCompensationData c).isNull = false := rfl

theorem decodeCompensationData_encodeCompensationData (c : CompensationData) :
    decodeCompensationData (encodeCompensationData c) = some c := by
  simp [decodeCompensationData, encodeCompensationData, asObj, List.append_assoc,
    getStr_strOmit_hit, getStr_strOmit_hitLast, getStr_strOmit_skip, getStr_numOmit_skip,
    getNum_numOmit_hit, getNum_strOmit_skip, getNum_numOmit_skip,
    lookupKv_strOmit_skip, lookupKv_numOmit_skip, lookupKv_strOmit_none]

theorem isNull_encodeStatusData (s : StatusData) : (encodeStatusData s).isNull = false := rfl

theorem decodeStatusData_encodeStatusData (s : StatusData) :
    decodeStatusData (encodeStatusData s) = some s := by
  simp [decodeStatusData, encodeStatusData, asObj, List.append_assoc,
    getStr_strOmit_hit, getStr_strOmit_hitLast, getStr_strOmit_skip,
    lookupKv_strOmit_skip, lookupKv_strOmit_none]

theorem isNull_encodePositionData (p : PositionData) : (encodePositionData p).isNull = false := rfl

theorem decodePositionData_encodePositionData (p : PositionData) :
    decodePositionData (encodePositionData p) = some p := by
  simp [decodePositionData, encodePositionData, asObj, List.append_assoc,
    getStr_strOmit_hit, getStr_strOmit_skip, getStr_numOmit_skip,
    getNum_strOmit_skip, getNum_numOmit_hitLast,
    lookupKv_strOmit_skip, lookupKv_numOmit_skip, lookupKv_numOmit_none]

theorem isNull_encodeEmploymentDateData (e : EmploymentDateData) :
    (encodeEmploymentDateData e).isNull = false := rfl

theorem decodeEmploymentDateData_encodeEmploymentDateData (e : EmploymentDateData) :
    decodeEmploymentDateData (encodeEmploymentDateData e) = some e := by
  simp [decodeEmploymentDateData, encodeEmploymentDateData, asObj, List.append_assoc,
    getStr_strOmit_hit, getStr_strOmit_hitLast, getStr_strOmit_skip,
    lookupKv_strOmit_skip, lookupKv_strOmit_none]

theorem isNull_encodePaycorEmployee (e : PaycorEmployee) :
    (encodePaycorEmployee e).isNull = false := rfl

set_option maxHeartbeats 2000000 in
theorem decodePaycorEmployee_encodePaycorEmployee (e : PaycorEmployee) :
    decodePaycorEmployee (encodePaycorEmployee e) = some e := by
  have hobj : asObj (encodePaycorEmployee e) = some (paycorEmployeeFields e) := rfl
  have h1 : getStr (paycorEmployeeFields e) "employeeId" = some e.EmployeeID := by
    simp [paycorEmployeeFields, List.append_assoc, getStr_strField_hit]
  have h2 : getStr (paycorEmployeeFields e) "firstName" = some e.FirstName := by
    simp [paycorEmployeeFields, List.append_assoc, getStr_strField_hit, getStr_strField_skip]
  have h3 : getStr (paycorEmployeeFields e) "lastName" = some e.LastName := by
    simp [paycorEmployeeFields, List.append_assoc, getStr_strField_hit, getStr_strField_skip]
  have h4 : getStr (paycorEmployeeFields e) "middleName" = some e.MiddleName := by
    simp [paycorEmployeeFields, List.append_assoc, getStr_strField_skip,
      getStr_strOmit_hit, lookupKv_strOmit_skip, lookupKv_optField_skip,
      lookupKv_optField_none]
  have h5 : getStr (paycorEmployeeFields e) "preferredName" = some e.PreferredName := by
    simp [paycorEmployeeFields, List.append_assoc, getStr_strField_skip, getStr_strOmit_skip,
      getStr_strOmit_hit, lookupKv_strOmit_skip, lookupKv_optField_skip,
      lookupKv_optField_none]
  have h6 : getStr (paycorEmployeeFields e) "personalEmail" = some e.PersonalEmail := by
    simp [paycorEmployeeFields, List.append_assoc, getStr_strField_skip, getStr_strOmit_skip,
      getStr_strOmit_hit, lookupKv_strOmit_skip, lookupKv_optField_skip,
      lookupKv_optField_none]
  have h7 : getStr (paycorEmployeeFields e) "workEmail" = some e.WorkEmail := by
    simp [paycorEmployeeFields, List.append_assoc, getStr_strField_skip, getStr_strOmit_skip,
      getStr_strOmit_hit, lookupKv_strOmit_skip, lookupKv_optField_skip,
      lookupKv_optField_none]
  have h8 : getStr (paycorEmployeeFields e) "department" = some e.Department := by
    simp [paycorEmployeeFields, List.append_assoc, getStr_strField_skip, getStr_strOmit_skip,
      getStr_strOmit_hit, lookupKv_strOmit_skip, lookupKv_optField_skip,
      lookupKv_optField_none]
  have h9 : getStr (paycorEmployeeFields e) "location" = some e.Location := by
    simp [paycorEmployeeFields, List.append_assoc, getStr_strField_skip, getStr_strOmit_skip,
      getStr_strOmit_hit, lookupKv_strOmit_skip, lookupKv_optField_skip,
      lookupKv_optField_none]
  have h10 : getOpt decodeEmploymentDateData (paycorEmployeeFields e) "employmentDateData"
      = some e.EmploymentDateData := by
    simp [paycorEmployeeFields, List.append_assoc, getOpt_strField_skip, getOpt_strOmit_skip,
      getOpt_optField_hit, isNull_encodeEmploymentDateData,
      decodeEmploymentDateData_encodeEmploymentDateData,
      lookupKv_optField_skip, lookupKv_optField_none]
  have h11 : getOpt decodePositionData (paycorEmployeeFields e) "positionData"
      = some e.PositionData := by
    simp [paycorEmployeeFields, List.append_assoc, getOpt_strField_skip, getOpt_strOmit_skip,
      getOpt_optField_skip, getOpt_optField_hit, isNull_encodePositionData,
      decodePositionData_encodePositionData,
      lookupKv_optField_skip, lookupKv_optField_none]
  have h12 : getOpt decodeStatusData (paycorEmployeeFields e) "statusData"
      = some e.StatusData := by
    simp [paycorEmployeeFields, List.append_assoc, getOpt_strField_skip, getOpt_strOmit_skip,
      getOpt_optField_skip, getOpt_optField_hit, isNull_encodeStatusData,
      decodeStatusData_encodeStatusData,
      lookupKv_optField_skip, lookupKv_optField_none]
  have h13 : getOpt decodeCompensationData (paycorEmployeeFields e) "compensationData"
      = some e.CompensationData := by
    simp [paycorEmployeeFields, List.append_assoc, getOpt_strField_skip, getOpt_strOmit_skip,
      getOpt_optField_skip, getOpt_optField_hit, isNull_encodeCompensationData,
      decodeCompensationData_encodeCompensationData,
      lookupKv_optField_skip, lookupKv_optField_none]
  have h14 : getOpt decodeEmergencyContactData (paycorEmployeeFields e) "emergencyContactData"
      = some e.EmergencyContactData := by
    simp [paycorEmployeeFields, List.append_assoc, getOpt_strField_skip, getOpt_strOmit_skip,
      getOpt_optField_skip, getOpt_optField_hitLast, isNull_encodeEmergencyContactData,
      decodeEmergencyContactData_encodeEmergencyContactData]
  simp only [decodePaycorEmployee, hobj, h1, h2, h3, h4, h5, h6, h7, h8, h9, h10, h11,
    h12, h13, h14]

theorem decodePaycorWebhookPayload_encodePaycorWebhookPayload (p : PaycorWebhookPayload) :
    decodePaycorWebhookPayload (encodePaycorWebhookPayload p) = some p := by
  simp [decodePaycorWebhookPayload, encodePaycorWebhookPayload, asObj, List.append_assoc,
    getStr_strField_hit, getStr_strField_skip,
    decodePaycorEmployee_encodePaycorEmployee,
    lookupKv_strField_skip, lookupKv]


/-! ### Lemmas on the store operations -/

theorem applyUpdateStatus_id_not_mem (id : Int) (st ed jid : String) (now : Int)
    (table : List Row) (h : ∀ r ∈ table, r.id ≠ id) :
    applyUpdateStatus id st ed jid now table = table := by
  unfold applyUpdateStatus
  have hcong : ∀ r ∈ table,
      (if r.id = id then { r with status := st, updated_at := now, error_detail := ed, jira_object_id := jid } else r) = r := by
    intro r hr
    simp [h r hr]
  calc table.map _ = table.map (fun r => r) := List.map_congr_left hcong
    _ = table := List.map_id' table

theorem applyIncrementRetry_id_not_mem (id : Int) (now : Int)
    (table : List Row) (h : ∀ r ∈ table, r.id ≠ id) :
    applyIncrementRetry id now table = table := by
  unfold applyIncrementRetry
  have hcong : ∀ r ∈ table,
      (if r.id = id then { r with retry_count := r.retry_count + 1, updated_at := now } else r) = r := by
    intro r hr
    simp [h r hr]
  calc table.map _ = table.map (fun r => r) := List.map_congr_left hcong
    _ = table := List.map_id' table

theorem mem_applyUpdateStatus (id : Int) (st ed jid : String) (now : Int)
    (table : List Row) (r : Row) (hr : r ∈ applyUpdateStatus id st ed jid now table)
    (hid : r.id ≠ id) : r ∈ table := by
  simp only [applyUpdateStatus, List.mem_map] at hr
  obtain ⟨r0, hr0, rfl⟩ := hr
  by_cases h : r0.id = id <;> simp_all

theorem mem_applyIncrementRetry (id : Int) (now : Int)
    (table : List Row) (r : Row) (hr : r ∈ applyIncrementRetry id now table)
    (hid : r.id ≠ id) : r ∈ table := by
  simp only [applyIncrementRetry, List.mem_map] at hr
  obtain ⟨r0, hr0, rfl⟩ := hr
  by_cases h : r0.id = id <;> simp_all

theorem processOne_mem_frame (o : DbOracle) (handler : SyncEvent → Option String)
    (now : Int) (s : Store) (e : SyncEvent) (r : Row)
    (hr : r ∈ (processOne o handler now s e).2.table) (hid : r.id ≠ e.ID) :
    r ∈ s.table := by
  by_cases h0 : o.fails s.calls
  · simp only [processOne, MarkProcessing, UpdateEventStatus, h0, if_true, bump] at hr
    exact hr
  · simp only [processOne, MarkProcessing, UpdateEventStatus, h0, Bool.false_eq_true,
      if_false] at hr
    cases hh : handler e with
    | none =>
      rw [hh] at hr
      by_cases h1 : o.fails (s.calls + 1)
      · simp only [UpdateEventStatus, h1, if_true, bump] at hr
        exact mem_applyUpdateStatus _ _ _ _ _ _ _ hr hid
      · simp only [UpdateEventStatus, h1, Bool.false_eq_true, if_false] at hr
        exact mem_applyUpdateStatus _ _ _ _ _ _ _
          (mem_applyUpdateStatus _ _ _ _ _ _ _ hr hid) hid
    | some msg =>
      rw [hh] at hr
      by_cases h1 : o.fails (s.calls + 1)
      · simp only [UpdateEventStatus, h1, if_true, bump] at hr
        exact mem_applyUpdateStatus _ _ _ _ _ _ _ hr hid
      · simp only [UpdateEventStatus, h1, Bool.false_eq_true, if_false] at hr
        by_cases h2 : o.fails (s.calls + 1 + 1)
        · simp only [IncrementRetryCount, h2, if_true, bump] at hr
          exact mem_applyUpdateStatus _ _ _ _ _ _ _
            (mem_applyUpdateStatus _ _ _ _ _ _ _ hr hid) hid
        · simp only [IncrementRetryCount, h2, Bool.false_eq_true, if_false] at hr
          exact mem_applyUpdateStatus _ _ _ _ _ _ _
            (mem_applyUpdateStatus _ _ _ _ _ _ _
              (mem_applyIncrementRetry _ _ _ _ hr hid) hid) hid

theorem processOne_ok_status (o : DbOracle) (handler : SyncEvent → Option String)
    (now : Int) (s : Store) (e : SyncEvent)
    (hok : (processOne o handler now s e).1 = .ok ()) :
    ∀ r ∈ (processOne o handler now s e).2.table, r.id = e.ID →
      r.status = "Success" ∨ r.status = "Failed" := by
  intro r hr hid
  by_cases h0 : o.fails s.calls
  · simp [processOne, MarkProcessing, UpdateEventStatus, h0] at hok
  · simp only [processOne, MarkProcessing, UpdateEventStatus, h0, Bool.false_eq_true,
      if_false] at hok hr
    cases hh : handler e with
    | none =>
      rw [hh] at hok hr
      by_cases h1 : o.fails (s.calls + 1)
      · simp [UpdateEventStatus, h1] at hok
      · simp only [UpdateEventStatus, h1, Bool.false_eq_true, if_false] at hr
        simp only [applyUpdateStatus, List.mem_map] at hr
        obtain ⟨r0, hr0, rfl⟩ := hr
        by_cases h : r0.id = e.ID <;> simp_all
    | some msg =>
      rw [hh] at hok hr
      by_cases h1 : o.fails (s.calls + 1)
      · simp [UpdateEventStatus, h1] at hok
      · simp only [UpdateEventStatus, h1, Bool.false_eq_true, if_false] at hok hr
        by_cases h2 : o.fails (s.calls + 1 + 1)
        · simp [IncrementRetryCount, h2] at hok
        · simp only [IncrementRetryCount, h2, Bool.false_eq_true, if_false] at hr
          simp only [applyIncrementRetry, applyUpdateStatus, List.map_map,
            List.mem_map] at hr
          obtain ⟨r0, hr0, rfl⟩ := hr
          by_cases h : r0.id = e.ID <;> simp_all

theorem processOne_allOk_fail_row (handler : SyncEvent → Option String)
    (now : Int) (s : Store) (e : SyncEvent) (msg : String)
    (hmsg : handler e = some msg) :
    ∀ r ∈ (processOne allOk handler now s e).2.table, r.id = e.ID →
      r.status = "Failed" ∧ r.error_detail = truncateErrorDetail msg := by
  intro r hr hid
  simp only [processOne, MarkProcessing, UpdateEventStatus, IncrementRetryCount, allOk,
    hmsg, Bool.false_eq_true, if_false] at hr
  simp only [applyIncrementRetry, applyUpdateStatus, List.map_map, List.mem_map] at hr
  obtain ⟨r0, hr0, rfl⟩ := hr
  by_cases h : r0.id = e.ID <;> simp_all

theorem processOne_allOk_ok (handler : SyncEvent → Option String) (now : Int)
    (s : Store) (e : SyncEvent) : (processOne allOk handler now s e).1 = .ok () := by
  cases hh : handler e <;>
    simp [processOne, MarkProcessing, UpdateEventStatus, IncrementRetryCount, allOk, hh]

theorem processList_mem_frame (o : DbOracle) (handler : SyncEvent → Option String)
    (now : Int) : ∀ (es : List SyncEvent) (s : Store) (r : Row),
    r ∈ (processList o handler now es s).2.table → (∀ ev ∈ es, ev.ID ≠ r.id) →
    r ∈ s.table := by
  intro es
  induction es with
  | nil => intro s r hr _; simpa [processList] using hr
  | cons e es ih =>
    intro s r hr hids
    rw [processList] at hr
    rcases hpo : processOne o handler now s e with ⟨res, s1⟩
    rw [hpo] at hr
    have hide : e.ID ≠ r.id := hids e (by simp)
    cases res with
    | error err =>
      simp only at hr
      exact processOne_mem_frame o handler now s e r (by rw [hpo]; exact hr)
        (fun h => hide h.symm)
    | ok _ =>
      simp only at hr
      have hr1 : r ∈ s1.table :=
        ih s1 r hr (fun ev hev => hids ev (by simp [hev]))
      exact processOne_mem_frame o handler now s e r (by rw [hpo]; exact hr1)
        (fun h => hide h.symm)

theorem processList_allOk_ok (handler : SyncEvent → Option String) (now : Int) :
    ∀ (es : List SyncEvent) (s : Store),
    (processList allOk handler now es s).1 = .ok () := by
  intro es
  induction es with
  | nil => intro s; rfl
  | cons e es ih =>
    intro s
    rw [processList]
    rcases hpo : processOne allOk handler now s e with ⟨res, s1⟩
    have hok := processOne_allOk_ok handler now s e
    rw [hpo] at hok
    cases res with
    | error err => simp at hok
    | ok _ => simpa using ih s1

theorem processList_ok_status (o : DbOracle) (handler : SyncEvent → Option String)
    (now : Int) : ∀ (es : List SyncEvent) (s : Store),
    es.Pairwise (fun a b => a.ID ≠ b.ID) →
    (processList o handler now es s).1 = .ok () →
    ∀ e ∈ es, ∀ r ∈ (processList o handler now es s).2.table, r.id = e.ID →
      r.status = "Success" ∨ r.status = "Failed" := by
  intro es
  induction es with
  | nil => intro s _ _ e he; simp at he
  | cons e' es ih =>
    intro s hids hok e he r hr hid
    rw [processList] at hr hok
    rcases hpo : processOne o handler now s e' with ⟨res, s1⟩
    rw [hpo] at hr hok
    cases res with
    | error err => simp at hok
    | ok _ =>
      simp only at hr hok
      rcases List.mem_cons.mp he with rfl | hin
      · have hframe : r ∈ s1.table := by
          refine processList_mem_frame o handler now es s1 r hr ?_
          intro ev hev
          have := (List.pairwise_cons.mp hids).1 ev hev
          rw [hid]
          exact this.symm
        exact processOne_ok_status o handler now s e (by rw [hpo]) r
          (by rw [hpo]; exact hframe) hid
      · exact ih s1 ((List.pairwise_cons.mp hids).2) hok e hin r hr hid

theorem decodeRows_ids : ∀ (rows : List Row) (evs : List SyncEvent),
    decodeRows rows = some evs → evs.map (fun e => e.ID) = rows.map (fun r => r.id) := by
  intro rows
  induction rows with
  | nil => intro evs h; simp [decodeRows] at h; subst h; rfl
  | cons r rs ih =>
    intro evs h
    rw [decodeRows] at h
    rcases he : rowToSyncEvent r with _ | ev
    · rw [he] at h; simp at h
    · rw [he] at h
      rcases hd : decodeRows rs with _ | es
      · rw [hd] at h; simp at h
      · rw [hd] at h
        simp only [Option.some.injEq] at h
        subst h
        have hid : ev.ID = r.id := by
          unfold rowToSyncEvent at he
          rcases hp : decodePaycorWebhookPayload r.payload with _ | p
          · rw [hp] at he; simp at he
          · rw [hp] at he
            simp only at he
            cases he
            rfl
        simp [hid, ih es hd]

theorem pairwise_ne_of_nodup_map {α β : Type} (f : α → β) :
    ∀ (l : List α), (l.map f).Nodup → l.Pairwise (fun a b => f a ≠ f b) := by
  intro l
  induction l with
  | nil => intro _; exact List.Pairwise.nil
  | cons a l ih =>
    intro h
    simp only [List.map_cons, List.nodup_cons, List.mem_map] at h
    refine List.Pairwise.cons ?_ (ih h.2)
    intro b hb heq
    exact h.1 ⟨b, hb, heq.symm⟩

theorem fetched_events_pairwise (o : DbOracle) (s : Store) (limit : Nat)
    (events : List SyncEvent) (s1 : Store)
    (hnodup : (s.table.map (fun r => r.id)).Nodup)
    (hfetch : GetPendingEvents o s limit = (.ok events, s1)) :
    events.Pairwise (fun a b => a.ID ≠ b.ID) := by
  unfold GetPendingEvents at hfetch
  by_cases h0 : o.fails s.calls
  · simp [h0] at hfetch
  · simp only [h0, Bool.false_eq_true, if_false] at hfetch
    rcases hd : decodeRows ((sortByCreatedAt (pendingRows s.table)).take limit)
      with _ | evs
    · rw [hd] at hfetch; simp at hfetch
    · rw [hd] at hfetch
      simp only [Prod.mk.injEq, Except.ok.injEq] at hfetch
      obtain ⟨rfl, -⟩ := hfetch
      apply pairwise_ne_of_nodup_map
      rw [decodeRows_ids _ _ hd]
      have hfilter : ((pendingRows s.table).map (fun r => r.id)).Nodup :=
        hnodup.sublist ((List.filter_sublist _).map _)
      have hsorted :
          ((sortByCreatedAt (pendingRows s.table)).map (fun r => r.id)).Nodup := by
        have hperm := (List.perm_insertionSort createdAtLE (pendingRows s.table)).map
          (fun r => r.id)
        exact (hperm.nodup_iff).mpr hfilter
      exact hsorted.sublist ((List.take_sublist _ _).map _)

theorem truncate_short (msg : String) (h : msg.length ≤ 500) :
    truncateErrorDetail msg = msg := by
  unfold truncateErrorDetail
  simp [Nat.not_lt.mpr h]

theorem truncate_long (msg : String) (h : 500 < msg.length) :
    truncateErrorDetail msg = String.mk (msg.data.take 500) ∧
    (truncateErrorDetail msg).length = 500 := by
  unfold truncateErrorDetail
  rw [if_pos h]
  refine ⟨rfl, ?_⟩
  show (msg.data.take 500).length = 500
  rw [List.length_take]
  exact Nat.min_eq_left (Nat.le_of_lt h)

/-! ### The claims -/

/-- C1: the spec requires the failure transition (`MarkFailed` plus
`IncrementRetryCount`) to be atomic, but `ProcessPendingEvents` issues the
two UPDATEs as separate statements with no transaction.  In the run in
which the fourth statement (the retry-count UPDATE) fails after the
`Failed` UPDATE succeeded, the invocation returns an error and the event
is left with status `Failed` and an unincremented `retryCount`. -/
theorem failed_event_left_with_unincremented_retry :
    (ProcessPendingEvents failOnFourth (fun _ => some "boom") 9 sampleStore).1
      = .error DbError.execFailed ∧
    (ProcessPendingEvents failOnFourth (fun _ => some "boom") 9 sampleStore).2.table.map
      (fun r => (r.status, r.retry_count)) = [("Failed", 0)] := ⟨rfl, rfl⟩

/-- C2: the handler parameter of `ProcessPendingEvents` has type
`func(SyncEvent) error`, so a success cannot carry a downstream
identifier; the success branch stores the event's own pre-fetch
`JiraObjectID` (always `""` for a freshly inserted event).  With a
spec-contract handler that succeeds supplying `"JIRA-123"`, the stored
`externalObjectId` is `""`, not the handler-supplied value (while
`errorDetail` is indeed cleared). -/
theorem success_stores_stale_external_id :
    (ProcessPendingEvents allOk (adaptHandler specSuccessHandler) 9 sampleStore).1
      = .ok () ∧
    (ProcessPendingEvents allOk (adaptHandler specSuccessHandler) 9 sampleStore).2.table.map
      (fun r => (r.status, r.jira_object_id, r.error_detail))
      = [("Success", "", "")] ∧
    ("" : String) ≠ "JIRA-123" := ⟨rfl, rfl, by decide⟩

/-- C3: `handlePaycorWebhook` responds 400 and inserts nothing on a
malformed body or an empty `eventType`; on a non-empty `eventType` it
inserts exactly one row with that event type and responds 202 with body
`{"message":...,"status":"accepted"}`; if the insert fails it responds
500 and no row is added. -/
theorem handlePaycorWebhook_contract (o : DbOracle) (s : Store) (now : Int)
    (body : Option Json) :
    ((body = none ∨ ∃ doc, body = some doc ∧ decodePaycorWebhookPayload doc = none) →
      (handlePaycorWebhook o s now body).1 = 400 ∧
      (handlePaycorWebhook o s now body).2.2 = s) ∧
    (∀ doc payload, body = some doc → decodePaycorWebhookPayload doc = some payload →
      payload.EventType = "" →
      (handlePaycorWebhook o s now body).1 = 400 ∧
      (handlePaycorWebhook o s now body).2.2 = s) ∧
    (∀ doc payload, body = some doc → decodePaycorWebhookPayload doc = some payload →
      payload.EventType ≠ "" →
      (o.fails s.calls = false →
        (handlePaycorWebhook o s now body).1 = 202 ∧
        (handlePaycorWebhook o s now body).2.1 =
          .obj [("message", .str "Event queued for processing"),
            ("status", .str "accepted")] ∧
        (handlePaycorWebhook o s now body).2.2.table =
          s.table ++ [mkRow s.nextId ⟨0, payload.EventType, payload, "Pending", now, now, 0, "", ""⟩] ∧
        (mkRow s.nextId ⟨0, payload.EventType, payload, "Pending", now, now, 0, "", ""⟩).event_type
          = payload.EventType ∧
        (mkRow s.nextId ⟨0, payload.EventType, payload, "Pending", now, now, 0, "", ""⟩).status
          = "Pending") ∧
      (o.fails s.calls = true →
        (handlePaycorWebhook o s now body).1 = 500 ∧
        (handlePaycorWebhook o s now body).2.2.table = s.table)) := by
  refine ⟨?_, ?_, ?_⟩
  · rintro (rfl | ⟨doc, rfl, hdec⟩)
    · exact ⟨rfl, rfl⟩
    · simp [handlePaycorWebhook, hdec]
  · rintro doc payload rfl hdec hempty
    simp [handlePaycorWebhook, hdec, hempty]
  · rintro doc payload rfl hdec hne
    constructor
    · intro hok
      simp [handlePaycorWebhook, hdec, hne, InsertEvent, hok, mkRow]
    · intro hfail
      simp [handlePaycorWebhook, hdec, hne, InsertEvent, hfail, bump]

/-- C3 witness: accepting a concrete well-formed body on the empty store. -/
theorem handlePaycorWebhook_contract_witness :
    (decodePaycorWebhookPayload (encodePaycorWebhookPayload samplePayload)
      = some samplePayload) ∧
    (samplePayload.EventType ≠ "") ∧
    (allOk.fails (⟨[], 1, 0⟩ : Store).calls = false) ∧
    ((handlePaycorWebhook allOk ⟨[], 1, 0⟩ 3
        (some (encodePaycorWebhookPayload samplePayload))).1 = 202 ∧
      (handlePaycorWebhook allOk ⟨[], 1, 0⟩ 3
        (some (encodePaycorWebhookPayload samplePayload))).2.1 =
        .obj [("message", .str "Event queued for processing"),
          ("status", .str "accepted")] ∧
      (handlePaycorWebhook allOk ⟨[], 1, 0⟩ 3
        (some (encodePaycorWebhookPayload samplePayload))).2.2.table =
        (⟨[], 1, 0⟩ : Store).table ++
          [mkRow (⟨[], 1, 0⟩ : Store).nextId
            ⟨0, samplePayload.EventType, samplePayload, "Pending", 3, 3, 0, "", ""⟩] ∧
      (mkRow (⟨[], 1, 0⟩ : Store).nextId
        ⟨0, samplePayload.EventType, samplePayload, "Pending", 3, 3, 0, "", ""⟩).event_type
        = samplePayload.EventType ∧
      (mkRow (⟨[], 1, 0⟩ : Store).nextId
        ⟨0, samplePayload.EventType, samplePayload, "Pending", 3, 3, 0, "", ""⟩).status
        = "Pending") :=
  ⟨rfl, by decide, rfl,
    ((handlePaycorWebhook_contract allOk ⟨[], 1, 0⟩ 3
        (some (encodePaycorWebhookPayload samplePayload))).2.2
      (encodePaycorWebhookPayload samplePayload) samplePayload rfl rfl
      (by decide)).1 rfl⟩

/-- C4 counterexample: with two pending rows tying on `created_at` (ids 1
and 2), the list holding row 2 before row 1 is an admissible answer of the
`ORDER BY created_at ASC` query, and it is not sorted with ties broken by
id — the query has no id tie-break. -/
theorem getPendingEvents_tie_order_counterexample :
    IsPendingBatchResult tieTable 10 [rowB, rowA] ∧
    ¬ SortedByCreatedAtThenId [rowB, rowA] := by
  constructor
  · refine ⟨[rowB, rowA], ?_, ?_, rfl⟩
    · have h : pendingRows tieTable = [rowA, rowB] := rfl
      rw [h]
      exact List.Perm.swap rowA rowB []
    · simp [List.sorted_cons, createdAtLE, rowA, rowB]
  · simp [SortedByCreatedAtThenId, List.sorted_cons, rowA, rowB]

/-- C4 (amended): every admissible answer of the pending-batch query has
at most `limit` rows, only `Pending` rows, and is sorted by `created_at`
ascending — with no guarantee on the order of rows with equal
`created_at`; the concrete `GetPendingEvents` result is such an answer,
and with no pending rows the call returns an empty ok result, not an
error. -/
theorem getPendingEvents_batch_contract :
    (∀ (table : List Row) (limit : Nat) (res : List Row),
      IsPendingBatchResult table limit res →
        res.length ≤ limit ∧
        (∀ r ∈ res, r.status = "Pending") ∧
        List.Sorted createdAtLE res ∧
        (pendingRows table = [] → res = [])) ∧
    (∀ (table : List Row) (limit : Nat),
      IsPendingBatchResult table limit ((sortByCreatedAt (pendingRows table)).take limit)) ∧
    (∀ (o : DbOracle) (s : Store) (limit : Nat), o.fails s.calls = false →
      pendingRows s.table = [] → GetPendingEvents o s limit = (.ok [], bump s)) := by
  refine ⟨?_, ?_, ?_⟩
  · rintro table limit res ⟨sorted, hperm, hsort, rfl⟩
    refine ⟨List.length_take_le limit sorted, ?_, ?_, ?_⟩
    · intro r hr
      have hr2 : r ∈ sorted := List.take_subset limit sorted hr
      have hr3 : r ∈ pendingRows table := hperm.subset hr2
      simp [pendingRows, List.mem_filter] at hr3
      exact hr3.2
    · exact List.Pairwise.take hsort
    · intro hempty
      rw [hempty] at hperm
      rw [List.Perm.eq_nil hperm]
      simp
  · intro table limit
    refine ⟨sortByCreatedAt (pendingRows table), ?_, ?_, rfl⟩
    · exact List.perm_insertionSort createdAtLE (pendingRows table)
    · exact List.sorted_insertionSort createdAtLE (pendingRows table)
  · intro o s limit hok hempty
    simp [GetPendingEvents, hok, sortByCreatedAt, hempty, decodeRows, bump]

/-- C4 witness: the contract evaluated on the concrete tied table. -/
theorem getPendingEvents_batch_contract_witness :
    IsPendingBatchResult tieTable 10 ((sortByCreatedAt (pendingRows tieTable)).take 10) ∧
    (((sortByCreatedAt (pendingRows tieTable)).take 10).length ≤ 10 ∧
      (∀ r ∈ (sortByCreatedAt (pendingRows tieTable)).take 10, r.status = "Pending") ∧
      List.Sorted createdAtLE ((sortByCreatedAt (pendingRows tieTable)).take 10) ∧
      (pendingRows tieTable = [] →
        (sortByCreatedAt (pendingRows tieTable)).take 10 = [])) :=
  ⟨getPendingEvents_batch_contract.2.1 tieTable 10,
    getPendingEvents_batch_contract.1 tieTable 10 _
      (getPendingEvents_batch_contract.2.1 tieTable 10)⟩

/-- C5: for a handler failure with message `msg` and no store failure, the
stored `errorDetail` of the event's row is `truncateErrorDetail msg`,
which is `msg` itself when `msg` has at most 500 characters and the
500-character prefix of `msg` (of length exactly 500) otherwise. -/
theorem errorDetail_truncation (s : Store) (event : SyncEvent)
    (handler : SyncEvent → Option String) (msg : String) (now : Int)
    (hmsg : handler event = some msg) :
    (∀ r ∈ (processOne allOk handler now s event).2.table, r.id = event.ID →
      r.error_detail = truncateErrorDetail msg) ∧
    (msg.length ≤ 500 → truncateErrorDetail msg = msg) ∧
    (500 < msg.length → truncateErrorDetail msg = String.mk (msg.data.take 500) ∧
      (truncateErrorDetail msg).length = 500) := by
  refine ⟨?_, truncate_short msg, truncate_long msg⟩
  intro r hr hid
  exact (processOne_allOk_fail_row handler now s event msg hmsg r hr hid).2

/-- C5 witness: a concrete failing handler on the sample store. -/
theorem errorDetail_truncation_witness :
    ((fun _ : SyncEvent => some "boom") sampleEvent = some "boom") ∧
    ((∀ r ∈ (processOne allOk (fun _ => some "boom") 0 sampleStore sampleEvent).2.table,
        r.id = sampleEvent.ID → r.error_detail = truncateErrorDetail "boom") ∧
      ("boom".length ≤ 500 → truncateErrorDetail "boom" = "boom") ∧
      (500 < "boom".length →
        truncateErrorDetail "boom" = String.mk ("boom".data.take 500) ∧
        (truncateErrorDetail "boom").length = 500)) :=
  ⟨rfl, errorDetail_truncation sampleStore sampleEvent (fun _ => some "boom") "boom" 0 rfl⟩

/-- C6: with per-event ids distinct and no store failure, the batch loop
returns ok whatever the handler outcomes — a handler failure is never
propagated — and every event whose handler failed has its row recorded as
`Failed` with the truncated message, independently of the outcomes of the
other events of the batch. -/
theorem handler_failure_never_aborts_batch (handler : SyncEvent → Option String)
    (now : Int) (es : List SyncEvent) (s : Store)
    (hids : es.Pairwise (fun a b => a.ID ≠ b.ID)) :
    (processList allOk handler now es s).1 = .ok () ∧
    (∀ e ∈ es, ∀ msg, handler e = some msg →
      ∀ r ∈ (processList allOk handler now es s).2.table, r.id = e.ID →
        r.status = "Failed" ∧ r.error_detail = truncateErrorDetail msg) := by
  refine ⟨processList_allOk_ok handler now es s, ?_⟩
  induction es generalizing s with
  | nil => intro e he; simp at he
  | cons e' es ih =>
    intro e he msg hmsg r hr hid
    rw [processList] at hr
    rcases hpo : processOne allOk handler now s e' with ⟨res, s1⟩
    rw [hpo] at hr
    have hok := processOne_allOk_ok handler now s e'
    rw [hpo] at hok
    cases res with
    | error err => simp at hok
    | ok _ =>
      simp only at hr
      rcases List.mem_cons.mp he with rfl | hin
      · have hframe : r ∈ s1.table := by
          refine processList_mem_frame allOk handler now es s1 r hr ?_
          intro ev hev
          have := (List.pairwise_cons.mp hids).1 ev hev
          rw [hid]
          exact this.symm
        exact processOne_allOk_fail_row handler now s e msg hmsg r
          (by rw [hpo]; exact hframe) hid
      · exact ih s1 ((List.pairwise_cons.mp hids).2) e hin msg hmsg r hr hid

/-- C6 witness: a one-event batch whose handler fails. -/
theorem handler_failure_never_aborts_batch_witness :
    ([sampleFetched].Pairwise (fun a b => a.ID ≠ b.ID)) ∧
    ((processList allOk (fun _ => some "boom") 0 [sampleFetched] sampleStore).1
        = .ok () ∧
      (∀ e ∈ [sampleFetched], ∀ msg, (fun _ : SyncEvent => some "boom") e = some msg →
        ∀ r ∈ (processList allOk (fun _ => some "boom") 0
            [sampleFetched] sampleStore).2.table,
          r.id = e.ID → r.status = "Failed" ∧ r.error_detail = truncateErrorDetail msg)) :=
  ⟨by simp, handler_failure_never_aborts_batch (fun _ => some "boom") 0
    [sampleFetched] sampleStore (by simp)⟩

/-- C7 counterexample: id 99 exists nowhere in the sample store, yet both
`UpdateEventStatus` and `IncrementRetryCount` report success — the code
never inspects the affected-row count, so no `NotFoundError` is raised. -/
theorem updateStatus_missing_id_counterexample :
    (∀ r ∈ sampleStore.table, r.id ≠ 99) ∧
    (UpdateEventStatus allOk sampleStore 99 "Processing" "" "" 5).1 = .ok () ∧
    (IncrementRetryCount allOk sampleStore 99 5).1 = .ok () := by
  refine ⟨?_, rfl, rfl⟩
  intro r hr
  simp [sampleStore, mkRow, sampleEvent] at hr
  subst hr
  decide

/-- C7 (amended): a status update or retry-count increment on an id with
no matching row succeeds (ok, no error) and leaves the table unchanged;
the operations cannot report a missing id. -/
theorem updateStatus_missing_id_succeeds (o : DbOracle) (s : Store) (id : Int)
    (st ed jid : String) (now : Int) (hid : ∀ r ∈ s.table, r.id ≠ id)
    (hok : o.fails s.calls = false) :
    UpdateEventStatus o s id st ed jid now = (.ok (), ⟨s.table, s.nextId, s.calls + 1⟩) ∧
    IncrementRetryCount o s id now = (.ok (), ⟨s.table, s.nextId, s.calls + 1⟩) := by
  constructor
  · simp [UpdateEventStatus, hok, applyUpdateStatus_id_not_mem id st ed jid now s.table hid]
  · simp [IncrementRetryCount, hok, applyIncrementRetry_id_not_mem id now s.table hid]

/-- C7 witness: the amended contract evaluated at the missing id 99. -/
theorem updateStatus_missing_id_succeeds_witness :
    (∀ r ∈ sampleStore.table, r.id ≠ 99) ∧
    (allOk.fails sampleStore.calls = false) ∧
    (UpdateEventStatus allOk sampleStore 99 "Processing" "" "" 5
        = (.ok (), ⟨sampleStore.table, sampleStore.nextId, sampleStore.calls + 1⟩) ∧
      IncrementRetryCount allOk sampleStore 99 5
        = (.ok (), ⟨sampleStore.table, sampleStore.nextId, sampleStore.calls + 1⟩)) :=
  ⟨by decide, rfl,
    updateStatus_missing_id_succeeds allOk sampleStore 99 "Processing" "" "" 5
      (by decide) rfl⟩

/-- C8: unmarshalling after marshalling is the identity on payloads: the
serialized payload column written by `InsertEvent` rehydrates through the
row scan of `GetPendingEvents` to a `SyncEvent` carrying the identical
payload. -/
theorem payload_roundtrip_insert_fetch :
    (∀ p : PaycorWebhookPayload,
      decodePaycorWebhookPayload (encodePaycorWebhookPayload p) = some p) ∧
    (∀ (id : Int) (e : SyncEvent),
      rowToSyncEvent (mkRow id e) =
        some ⟨id, e.EventType, e.Payload, e.Status, e.CreatedAt, e.UpdatedAt,
          e.RetryCount, e.ErrorDetail, ""⟩) ∧
    (∀ (id : Int) (e : SyncEvent),
      (rowToSyncEvent (mkRow id e)).map (fun ev => ev.Payload) = some e.Payload) := by
  have h2 : ∀ (id : Int) (e : SyncEvent),
      rowToSyncEvent (mkRow id e) =
        some ⟨id, e.EventType, e.Payload, e.Status, e.CreatedAt, e.UpdatedAt,
          e.RetryCount, e.ErrorDetail, ""⟩ := by
    intro id e
    simp [rowToSyncEvent, mkRow, decodePaycorWebhookPayload_encodePaycorWebhookPayload]
  refine ⟨decodePaycorWebhookPayload_encodePaycorWebhookPayload, h2, ?_⟩
  intro id e
  rw [h2 id e]
  rfl

/-- C9 counterexample: `MarkProcessing` on a row carrying an error detail
and a downstream object id wipes both to `""` — it does not leave them
unchanged. -/
theorem markProcessing_clears_fields_counterexample :
    failedStore.table.map (fun r => (r.error_detail, r.jira_object_id))
      = [("boom", "J-1")] ∧
    (MarkProcessing allOk failedStore 1 7).1 = .ok () ∧
    (MarkProcessing allOk failedStore 1 7).2.table.map
      (fun r => (r.error_detail, r.jira_object_id)) = [("", "")] :=
  ⟨rfl, rfl, rfl⟩

/-- C9 (amended): `MarkProcessing` preserves id, eventType, payload,
createdAt and retryCount of every row, and on the matching row sets the
status to `Processing`, refreshes `updatedAt`, and ALSO overwrites
`errorDetail` and `externalObjectId` with `""`; unmatched rows are
unchanged. -/
theorem markProcessing_frame (o : DbOracle) (s : Store) (id : Int) (now : Int)
    (hok : o.fails s.calls = false) :
    (MarkProcessing o s id now).1 = .ok () ∧
    (MarkProcessing o s id now).2.table.map (fun r => r.id) = s.table.map (fun r => r.id) ∧
    (MarkProcessing o s id now).2.table.map (fun r => r.event_type)
      = s.table.map (fun r => r.event_type) ∧
    (MarkProcessing o s id now).2.table.map (fun r => r.payload)
      = s.table.map (fun r => r.payload) ∧
    (MarkProcessing o s id now).2.table.map (fun r => r.created_at)
      = s.table.map (fun r => r.created_at) ∧
    (MarkProcessing o s id now).2.table.map (fun r => r.retry_count)
      = s.table.map (fun r => r.retry_count) ∧
    (∀ r ∈ (MarkProcessing o s id now).2.table, r.id = id →
      r.status = "Processing" ∧ r.updated_at = now ∧
      r.error_detail = "" ∧ r.jira_object_id = "") ∧
    (∀ r ∈ (MarkProcessing o s id now).2.table, r.id ≠ id → r ∈ s.table) := by
  unfold MarkProcessing UpdateEventStatus
  simp only [hok, Bool.false_eq_true, if_false, applyUpdateStatus, List.map_map]
  refine ⟨trivial, ?_, ?_, ?_, ?_, ?_, ?_, ?_⟩
  · refine List.map_congr_left ?_
    intro r _
    by_cases h : r.id = id <;> simp [h]
  · refine List.map_congr_left ?_
    intro r _
    by_cases h : r.id = id <;> simp [h]
  · refine List.map_congr_left ?_
    intro r _
    by_cases h : r.id = id <;> simp [h]
  · refine List.map_congr_left ?_
    intro r _
    by_cases h : r.id = id <;> simp [h]
  · refine List.map_congr_left ?_
    intro r _
    by_cases h : r.id = id <;> simp [h]
  · intro r hr hid
    simp only [List.mem_map] at hr
    obtain ⟨r0, _, rfl⟩ := hr
    by_cases h : r0.id = id <;> simp_all
  · intro r hr hid
    simp only [List.mem_map] at hr
    obtain ⟨r0, hr0, rfl⟩ := hr
    by_cases h : r0.id = id <;> simp_all

/-- C9 witness: the frame contract evaluated on the failed-row store. -/
theorem markProcessing_frame_witness :
    (allOk.fails failedStore.calls = false) ∧
    ((MarkProcessing allOk failedStore 1 7).1 = .ok () ∧
      (MarkProcessing allOk failedStore 1 7).2.table.map (fun r => r.id)
        = failedStore.table.map (fun r => r.id) ∧
      (MarkProcessing allOk failedStore 1 7).2.table.map (fun r => r.event_type)
        = failedStore.table.map (fun r => r.event_type) ∧
      (MarkProcessing allOk failedStore 1 7).2.table.map (fun r => r.payload)
        = failedStore.table.map (fun r => r.payload) ∧
      (MarkProcessing allOk failedStore 1 7).2.table.map (fun r => r.created_at)
        = failedStore.table.map (fun r => r.created_at) ∧
      (MarkProcessing allOk failedStore 1 7).2.table.map (fun r => r.retry_count)
        = failedStore.table.map (fun r => r.retry_count) ∧
      (∀ r ∈ (MarkProcessing allOk failedStore 1 7).2.table, r.id = 1 →
        r.status = "Processing" ∧ r.updated_at = 7 ∧
        r.error_detail = "" ∧ r.jira_object_id = "") ∧
      (∀ r ∈ (MarkProcessing allOk failedStore 1 7).2.table, r.id ≠ 1 →
        r ∈ failedStore.table)) :=
  ⟨rfl, markProcessing_frame allOk failedStore 1 7 rfl⟩

/-- C10: whenever `ProcessPendingEvents` returns without error, every
event of the batch it retrieved has been driven to `Success` or `Failed`
— no retrieved event's row is left `Processing`. -/
theorem processPendingEvents_ok_resolves_batch (o : DbOracle)
    (handler : SyncEvent → Option String) (now : Int) (s : Store)
    (events : List SyncEvent) (s1 : Store)
    (hnodup : (s.table.map (fun r => r.id)).Nodup)
    (hfetch : GetPendingEvents o s 10 = (.ok events, s1))
    (hok : (ProcessPendingEvents o handler now s).1 = .ok ()) :
    ∀ e ∈ events, ∀ r ∈ (ProcessPendingEvents o handler now s).2.table, r.id = e.ID →
      r.status = "Success" ∨ r.status = "Failed" := by
  have hpw := fetched_events_pairwise o s 10 events s1 hnodup hfetch
  unfold ProcessPendingEvents at hok ⊢
  rw [hfetch] at hok ⊢
  exact processList_ok_status o handler now events s1 hpw hok

/-- C10 witness: a one-event batch processed without store failures. -/
theorem processPendingEvents_ok_resolves_batch_witness :
    ((sampleStore.table.map (fun r => r.id)).Nodup) ∧
    (GetPendingEvents allOk sampleStore 10 = (.ok [sampleFetched], bump sampleStore)) ∧
    ((ProcessPendingEvents allOk (fun _ => some "x") 0 sampleStore).1 = .ok ()) ∧
    (∀ e ∈ [sampleFetched],
      ∀ r ∈ (ProcessPendingEvents allOk (fun _ => some "x") 0 sampleStore).2.table,
        r.id = e.ID → r.status = "Success" ∨ r.status = "Failed") :=
  ⟨by decide, rfl, rfl,
    processPendingEvents_ok_resolves_batch allOk (fun _ => some "x") 0 sampleStore
      [sampleFetched] (bump sampleStore) (by decide) rfl rfl⟩

end PSDI
